import Mathlib

/-!
Verification of the TxTracer-core state-reconstruction and replay pipeline.

The definitions below are a shallow embedding of the TypeScript sources:
  * src/src/methods.ts    (library scanning, replay, min-lt, trace assembly)
  * src/src/types.ts      (data model)
  * src/unnamed/part_001  (retrace wrapper, txOpcode, tryLoadAsLibrary)
Cells are modelled by their bit content (a big-endian list of booleans);
256-bit hashes and coin amounts are modelled as `Nat`; exit codes as `Int`;
fallible TypeScript code (functions that can `throw`) returns `Except String`.
External collaborators (network fetch of a library by hash, the execution
engine, the VM-log text format) are modelled as explicit oracle parameters.
-/

set_option maxRecDepth 10000

/-- Big-endian interpretation of a bit string as a natural number.
Models `@ton/core` `BitReader` reading most-significant bit first. -/
def bitsToNat (bits : List Bool) : Nat :=
  bits.foldl (fun acc b => 2 * acc + (if b then 1 else 0)) 0

/-- A TON cell, modelled by its bit content.  The operations embedded below
only ever inspect `bits` (references and the exotic flag of a real cell are
never read by the modelled code paths). -/
structure TsCell where
  bits : List Bool
deriving DecidableEq

/-- Models `slice.loadUint(n)` of `@ton/core`: reads the next `n` bits big-endian,
throwing when fewer than `n` bits remain. Returns the value and the rest. -/
def loadUintE (bits : List Bool) (n : Nat) : Except String (Nat × List Bool) :=
  if n ≤ bits.length then Except.ok (bitsToNat (bits.take n), bits.drop n)
  else Except.error "Index out of bounds"

/-- JavaScript `xs.at(-k)` for `k ≥ 1`: the `k`-th element from the end,
`undefined` when the list is shorter than `k`. -/
def atNeg (xs : List α) (k : Nat) : Option α :=
  if k ≤ xs.length then xs.get? (xs.length - k) else none

/-- A `Dictionary<bigint, Cell>` with 256-bit unsigned keys, modelled as an
association list in insertion order. -/
abbrev LibDict : Type := List (Nat × TsCell)

/-- Models `Dictionary.set`: overwrite the value when the key is present, otherwise
append the binding. -/
def dictSet (d : LibDict) (k : Nat) (v : TsCell) : LibDict :=
  if (List.any d fun kv => kv.1 = k) then
    List.map (fun kv => if kv.1 = k then (k, v) else kv) d
  else d ++ [(k, v)]

/-- Constant `EXOTIC_LIBRARY_TAG` from `src/src/methods.ts` and `src/unnamed/part_001`. -/
def EXOTIC_LIBRARY_TAG : Nat := 2

/-- From `src/src/methods.ts` lines 381-395, the inner helper
`addMaybeExoticLibrary` of `collectUsedLibraries`: when `code` is a 264-bit
cell whose first byte (`cs.loadUint(8)`) is the exotic-library tag 2, fetch
the real library by the following 256 bits (`cs.loadBuffer(32)`), record it
in the dictionary and return it; otherwise leave the dictionary unchanged and
return `undefined`.  `fetch` models `getLibraryByHash`, which throws when no
provider has the library (`none` here). -/
def addMaybeExoticLibrary (fetch : Nat → Option TsCell) (libs : LibDict)
    (code : Option TsCell) : Except String (LibDict × Option TsCell) :=
  match code with
  | none => Except.ok (libs, none)
  | some c =>
    if c.bits.length ≠ 256 + 8 then Except.ok (libs, none)
    else if bitsToNat (c.bits.take 8) ≠ EXOTIC_LIBRARY_TAG then Except.ok (libs, none)
    else
      match fetch (bitsToNat ((c.bits.drop 8).take 256)) with
      | none => Except.error "getLibraryByHash failed"
      | some actualCode =>
        Except.ok (dictSet libs (bitsToNat ((c.bits.drop 8).take 256)) actualCode,
          some actualCode)

/-- From `src/unnamed/part_001` lines 268-291, `tryLoadAsLibrary`: parse a
cell (the top-of-stack cell of the VM dump) as an exotic library cell; on a
shape mismatch return `undefined`, otherwise fetch the library content by the
256-bit hash and return hash and content.  `fetch` models `getLibraryByHash`. -/
def tryLoadAsLibrary (fetch : Nat → Option TsCell) (libCell : TsCell) :
    Except String (Option (Nat × TsCell)) :=
  if libCell.bits.length ≠ 256 + 8 then Except.ok none
  else if bitsToNat (libCell.bits.take 8) ≠ EXOTIC_LIBRARY_TAG then Except.ok none
  else
    match fetch (bitsToNat ((libCell.bits.drop 8).take 256)) with
    | none => Except.error "getLibraryByHash failed"
    | some actualCode =>
      Except.ok (some (bitsToNat ((libCell.bits.drop 8).take 256), actualCode))

/-- Spec-side definition, written from the specification words only (spec.md
section 4.2): a code cell is an externally-referenced fragment iff it is
exactly 264 bits long and its first 8 bits equal the tag value 2; the
fragment hash is the following 256 bits.  Used to compare the two source
classifiers against the specified rule. -/
def specFragmentClassify (c : TsCell) : Option Nat :=
  if c.bits.length = 264 ∧ bitsToNat (c.bits.take 8) = 2 then
    some (bitsToNat ((c.bits.drop 8).take 256))
  else none

/-- Characterization of `tryLoadAsLibrary` in terms of the specified
classification rule. -/
theorem tryLoadAsLibrary_eq (fetch : Nat → Option TsCell) (c : TsCell) :
    tryLoadAsLibrary fetch c =
      if c.bits.length = 264 ∧ bitsToNat (c.bits.take 8) = 2 then
        match fetch (bitsToNat ((c.bits.drop 8).take 256)) with
        | none => Except.error "getLibraryByHash failed"
        | some actualCode =>
          Except.ok (some (bitsToNat ((c.bits.drop 8).take 256), actualCode))
      else Except.ok none := by
  unfold tryLoadAsLibrary EXOTIC_LIBRARY_TAG
  by_cases hlen : c.bits.length = 264
  · by_cases htag : bitsToNat (c.bits.take 8) = 2
    · rw [if_neg (by omega), if_neg (by omega), if_pos ⟨hlen, htag⟩]
    · rw [if_neg (by omega), if_pos (by omega), if_neg (by tauto)]
  · rw [if_pos (by omega), if_neg (by tauto)]

/-- Characterization of the detection part of `addMaybeExoticLibrary` in
terms of the specified classification rule. -/
theorem addMaybeExoticLibrary_some_eq (fetch : Nat → Option TsCell) (libs : LibDict)
    (c : TsCell) :
    addMaybeExoticLibrary fetch libs (some c) =
      if c.bits.length = 264 ∧ bitsToNat (c.bits.take 8) = 2 then
        match fetch (bitsToNat ((c.bits.drop 8).take 256)) with
        | none => Except.error "getLibraryByHash failed"
        | some actualCode =>
          Except.ok (dictSet libs (bitsToNat ((c.bits.drop 8).take 256)) actualCode,
            some actualCode)
      else Except.ok (libs, none) := by
  show (if c.bits.length ≠ 256 + 8 then Except.ok (libs, none)
    else if bitsToNat (c.bits.take 8) ≠ EXOTIC_LIBRARY_TAG then Except.ok (libs, none)
    else
      match fetch (bitsToNat ((c.bits.drop 8).take 256)) with
      | none => Except.error "getLibraryByHash failed"
      | some actualCode =>
        Except.ok (dictSet libs (bitsToNat ((c.bits.drop 8).take 256)) actualCode,
          some actualCode)) = _
  unfold EXOTIC_LIBRARY_TAG
  by_cases hlen : c.bits.length = 264
  · by_cases htag : bitsToNat (c.bits.take 8) = 2
    · rw [if_neg (by omega), if_neg (by omega), if_pos ⟨hlen, htag⟩]
    · rw [if_neg (by omega), if_pos (by omega), if_neg (by tauto)]
  · rw [if_pos (by omega), if_neg (by tauto)]

/-- C1: the library scanner's classifier and the retry controller's
stack-cell classifier both classify a cell as an externally-referenced
library fragment exactly when it is 264 bits long with leading byte 2, both
extract the following 256 bits as the fragment hash, and both treat every
other cell as ordinary code. -/
theorem exotic_classification_c1 (c : TsCell) (fetch : Nat → Option TsCell) (libs : LibDict) :
    (specFragmentClassify c = none →
      tryLoadAsLibrary fetch c = Except.ok none ∧
      addMaybeExoticLibrary fetch libs (some c) = Except.ok (libs, none)) ∧
    (∀ h, specFragmentClassify c = some h →
      h = bitsToNat ((c.bits.drop 8).take 256) ∧
      (∀ lib, fetch h = some lib →
        tryLoadAsLibrary fetch c = Except.ok (some (h, lib)) ∧
        addMaybeExoticLibrary fetch libs (some c) =
          Except.ok (dictSet libs h lib, some lib)) ∧
      (fetch h = none →
        tryLoadAsLibrary fetch c = Except.error "getLibraryByHash failed" ∧
        addMaybeExoticLibrary fetch libs (some c) =
          Except.error "getLibraryByHash failed")) ∧
    (specFragmentClassify c = none ↔
      ¬(c.bits.length = 264 ∧ bitsToNat (c.bits.take 8) = 2)) := by
  rw [tryLoadAsLibrary_eq, addMaybeExoticLibrary_some_eq]
  unfold specFragmentClassify
  by_cases hc : c.bits.length = 264 ∧ bitsToNat (c.bits.take 8) = 2
  · rw [if_pos hc, if_pos hc, if_pos hc]
    refine ⟨by simp, ?_, by simp [hc]⟩
    intro h hh
    simp only [Option.some.injEq] at hh
    subst hh
    refine ⟨rfl, ?_, ?_⟩
    · intro lib hl
      rw [hl]
      exact ⟨rfl, rfl⟩
    · intro hl
      rw [hl]
      exact ⟨rfl, rfl⟩
  · rw [if_neg hc, if_neg hc, if_neg hc]
    exact ⟨fun _ => ⟨rfl, rfl⟩, by simp, by simp [hc]⟩

/-- Concrete 264-bit library-fragment cell: leading byte 2, hash bits all
zero (hash value 0). -/
def c1FragCell : TsCell :=
  ⟨List.replicate 6 false ++ [true, false] ++ List.replicate 256 false⟩

/-- Concrete fetch oracle: knows only the library with hash 0. -/
def c1Fetch : Nat → Option TsCell :=
  fun h => if h = 0 then some ⟨[true]⟩ else none

/-- Witness for C1 at a concrete fragment cell. -/
theorem exotic_classification_c1_witness :
    tryLoadAsLibrary c1Fetch c1FragCell = Except.ok (some (0, ⟨[true]⟩)) ∧
    addMaybeExoticLibrary c1Fetch [] (some c1FragCell) =
      Except.ok ([(0, ⟨[true]⟩)], some ⟨[true]⟩) := by
  have h := ((exotic_classification_c1 c1FragCell c1Fetch []).2.1 0 (by decide)).2.1
    ⟨[true]⟩ (by decide)
  refine ⟨h.1, ?_⟩
  rw [h.2]
  rfl

/-! ## Data model (from `src/src/types.ts` and the `@ton/core` types the code uses) -/

/-- A `@ton/core` address-like value: either a standard `Address` or an
`ExternalAddress` (the latter fails the `Address.isAddress` check). -/
inductive AddrM where
  | addr (value : Nat)
  | externalAddr (value : Nat)
deriving DecidableEq

/-- Models `Address.isAddress` from `@ton/core`. -/
def AddrM.isAddress : AddrM → Bool
  | AddrM.addr _ => true
  | AddrM.externalAddr _ => false

/-- Models `CommonMessageInfo` of `@ton/core`: internal, external-in or external-out,
with the fields the embedded code reads (`src`, `dest`, `value.coins`,
`bounced`). -/
inductive MsgInfoM where
  | internal (src : AddrM) (dest : AddrM) (value : Nat) (bounced : Bool)
  | externalIn (src : Option AddrM) (dest : AddrM)
  | externalOut (src : AddrM) (dest : Option AddrM)
deriving DecidableEq

/-- Field `info.src` (possibly `undefined`). -/
def MsgInfoM.src : MsgInfoM → Option AddrM
  | MsgInfoM.internal s _ _ _ => some s
  | MsgInfoM.externalIn s _ => s
  | MsgInfoM.externalOut s _ => some s

/-- Field `info.dest` (possibly `undefined`). -/
def MsgInfoM.dest : MsgInfoM → Option AddrM
  | MsgInfoM.internal _ d _ _ => some d
  | MsgInfoM.externalIn _ d => some d
  | MsgInfoM.externalOut _ d => d

/-- The `StateInit` carried by a message. -/
structure StateInitM where
  code : Option TsCell
  data : Option TsCell
deriving DecidableEq

/-- A `@ton/core` `Message`: info, optional `StateInit`, and a body cell. -/
structure MessageM where
  info : MsgInfoM
  init : Option StateInitM
  body : TsCell
deriving DecidableEq

/-- Compute phase of a generic transaction description: skipped, or executed
with success flag, exit code, step count, gas used and gas fee. -/
inductive ComputePhaseM where
  | skipped
  | vm (success : Bool) (exitCode : Int) (vmSteps : Nat) (gasUsed : Nat) (gasFees : Nat)
deriving DecidableEq

/-- Action phase of a generic transaction description (only `resultCode` is
read by the embedded code). -/
structure ActionPhaseM where
  resultCode : Int
deriving DecidableEq

/-- Transaction description: `generic` with its phases, or any other shape
(identified by its type name), which the assembler rejects. -/
inductive TxDescriptionM where
  | generic (computePhase : ComputePhaseM) (actionPhase : Option ActionPhaseM)
  | other (typeName : String)
deriving DecidableEq

/-- A decoded `@ton/core` `Transaction`, with the fields the embedded code
reads.  `stateUpdateNewHash` models `stateUpdate.newHash` (a 256-bit hash). -/
structure TransactionM where
  lt : Nat
  now : Nat
  inMessage : Option MessageM
  outMessages : List MessageM
  totalFees : Nat
  stateUpdateNewHash : Nat
  description : TxDescriptionM
deriving DecidableEq

/-- Account state (`AccountState` of `@ton/core`): uninit, frozen, or active
with optional code and data cells. -/
inductive AccountStateM where
  | uninit
  | frozen (stateHash : Nat)
  | active (code : Option TsCell) (data : Option TsCell)
deriving DecidableEq

/-- Account storage: balance in coins and the account state. -/
structure StorageM where
  balance : Nat
  state : AccountStateM
deriving DecidableEq

/-- An account record (`account.storage`). -/
structure AccountM where
  storage : StorageM
deriving DecidableEq

/-- A `ShardAccount` snapshot; `account` is `undefined` for a nonexistent
account. -/
structure ShardAccountM where
  account : Option AccountM
deriving DecidableEq

/-- One entry of a shard summary's transaction list (`ShardInfo.transactions`
in `src/src/types.ts`): logical time and account address string. -/
structure ShardTxRefM where
  lt : Nat
  account : String
deriving DecidableEq

/-- A shard summary inside a master-block (`ShardInfo`). -/
structure ShardInfoM where
  transactions : List ShardTxRefM
deriving DecidableEq

/-- A full master-block (`BlockInfo`): the list of its shard summaries. -/
structure BlockInfoM where
  shards : List ShardInfoM
deriving DecidableEq

/-! ## `computeMinLt` (src/src/methods.ts lines 263-274) -/

/-- From `src/src/methods.ts` lines 263-274: scan every shard summary of the
master-block and keep the smallest logical time of a transaction belonging to
`address`, starting from the target transaction's own `lt`.  The account
address is modelled by its rendered string (`address.toString()`). -/
def computeMinLt (tx : TransactionM) (address : String) (block : BlockInfoM) : Nat :=
  block.shards.foldl
    (fun minLt shard =>
      shard.transactions.foldl
        (fun minLt txInBlock =>
          if txInBlock.account = address ∧ txInBlock.lt < minLt then txInBlock.lt
          else minLt)
        minLt)
    tx.lt

/-- The logical times of all transactions in the block's shard summaries that
belong to `address` (observable used to state C7). -/
def matchingLts (address : String) (block : BlockInfoM) : List Nat :=
  (block.shards.map fun s => s.transactions).flatten.filterMap
    fun t => if t.account = address then some t.lt else none

/-- One update step of `computeMinLt` is a conditional `min`. -/
theorem computeMinLt_step (address : String) (t : ShardTxRefM) (m : Nat) :
    (if t.account = address ∧ t.lt < m then t.lt else m) =
      match (if t.account = address then some t.lt else none) with
      | some v => min m v
      | none => m := by
  by_cases ha : t.account = address
  · rw [if_pos ha]
    show (if t.account = address ∧ t.lt < m then t.lt else m) = min m t.lt
    by_cases hlt : t.lt < m
    · rw [if_pos ⟨ha, hlt⟩]
      exact (Nat.min_eq_right (Nat.le_of_lt hlt)).symm
    · rw [if_neg fun hc => hlt hc.2]
      exact (Nat.min_eq_left (Nat.le_of_not_lt hlt)).symm
  · rw [if_neg ha]
    show (if t.account = address ∧ t.lt < m then t.lt else m) = m
    rw [if_neg fun hc => ha hc.1]

/-- Folding a conditional-`min` step over a list is folding `min` over the
filtered values. -/
theorem foldl_min_filterMap {α : Type} (f : α → Option Nat) (l : List α) (m : Nat) :
    l.foldl (fun acc a => match f a with | some v => min acc v | none => acc) m
      = (l.filterMap f).foldl min m := by
  induction l generalizing m with
  | nil => rfl
  | cons x xs ih =>
    cases hf : f x <;> simp [List.filterMap_cons, hf, ih]

/-- Folding `min` over a list never exceeds its initial value. -/
theorem foldl_min_le (l : List Nat) (m : Nat) : l.foldl min m ≤ m := by
  induction l generalizing m with
  | nil => exact Nat.le_refl m
  | cons x xs ih => exact Nat.le_trans (ih (min m x)) (Nat.min_le_left m x)

/-- C7: the computed minimum logical time equals the minimum of the target
transaction's own logical time and the logical times of all shard-summary
entries for the target account; it never exceeds the target's logical time
and equals it when no matching entry exists. -/
theorem min_lt_c7 (tx : TransactionM) (address : String) (block : BlockInfoM) :
    computeMinLt tx address block = (matchingLts address block).foldl min tx.lt ∧
    computeMinLt tx address block ≤ tx.lt ∧
    (matchingLts address block = [] → computeMinLt tx address block = tx.lt) := by
  have inner : ∀ (ts : List ShardTxRefM) (m : Nat),
      ts.foldl (fun minLt txInBlock =>
          if txInBlock.account = address ∧ txInBlock.lt < minLt then txInBlock.lt
          else minLt) m
        = (ts.filterMap fun t => if t.account = address then some t.lt else none).foldl
            min m := by
    intro ts m
    rw [← foldl_min_filterMap]
    congr 1
    funext acc a
    exact computeMinLt_step address a acc
  have key : computeMinLt tx address block = (matchingLts address block).foldl min tx.lt := by
    unfold computeMinLt matchingLts
    generalize tx.lt = start
    induction block.shards generalizing start with
    | nil => rfl
    | cons s ss ih =>
      rw [List.foldl_cons, inner s.transactions start, List.map_cons, List.flatten_cons,
        List.filterMap_append, List.foldl_append]
      exact ih _
  refine ⟨key, ?_, ?_⟩
  · rw [key]
    exact foldl_min_le _ _
  · intro hnil
    rw [key, hnil]
    rfl

/-- Witness for C7 at a concrete block with no matching entries. -/
theorem min_lt_c7_witness :
    matchingLts "A" ⟨[⟨[⟨3, "B"⟩]⟩]⟩ = [] ∧
    computeMinLt ⟨10, 0, none, [], 0, 0, TxDescriptionM.other "x"⟩ "A" ⟨[⟨[⟨3, "B"⟩]⟩]⟩ = 10 := by
  refine ⟨by decide, ?_⟩
  exact (min_lt_c7 ⟨10, 0, none, [], 0, 0, TxDescriptionM.other "x"⟩ "A"
    ⟨[⟨[⟨3, "B"⟩]⟩]⟩).2.2 (by decide)

/-! ## `calculateSentTotal` (src/src/methods.ts lines 699-707) -/

/-- From `src/src/methods.ts` lines 699-707: sum the `value.coins` of every
outgoing message whose info type is internal. -/
def calculateSentTotal (tx : TransactionM) : Nat :=
  tx.outMessages.foldl
    (fun total msg =>
      match msg.info with
      | MsgInfoM.internal _ _ value _ => total + value
      | _ => total)
    0

/-- The coin value of a message when it is internal, `none` otherwise
(observable used to state C9). -/
def internalValue (msg : MessageM) : Option Nat :=
  match msg.info with
  | MsgInfoM.internal _ _ value _ => some value
  | _ => none

/-- One step of the sent-total fold adds the message's internal value (zero
for non-internal messages). -/
theorem sentTotal_step (acc : Nat) (m : MessageM) :
    (match m.info with
      | MsgInfoM.internal _ _ value _ => acc + value
      | _ => acc) = acc + (internalValue m).getD 0 := by
  cases hinfo : m.info <;> simp [internalValue, hinfo]

/-- Folding the sent-total step starting from `acc` adds the sum of the
internal values. -/
theorem sentTotal_foldl (msgs : List MessageM) (acc : Nat) :
    msgs.foldl
      (fun total msg =>
        match msg.info with
        | MsgInfoM.internal _ _ value _ => total + value
        | _ => total)
      acc = acc + (msgs.filterMap internalValue).sum := by
  induction msgs generalizing acc with
  | nil => simp
  | cons m ms ih =>
    simp only [List.foldl_cons]
    rw [sentTotal_step, ih, List.filterMap_cons]
    cases hv : internalValue m with
    | some v => simp [hv, Nat.add_assoc]
    | none => simp [hv]

/-- Dropping all non-internal messages does not change the internal values. -/
theorem filterMap_internal_filter (msgs : List MessageM) :
    (msgs.filter fun m => (internalValue m).isSome).filterMap internalValue
      = msgs.filterMap internalValue := by
  induction msgs with
  | nil => rfl
  | cons m ms ih =>
    cases hv : internalValue m with
    | some v => simp [List.filter_cons, List.filterMap_cons, hv, ih]
    | none => simp [List.filter_cons, List.filterMap_cons, hv, ih]

/-- C9: `sentTotal` is the exact sum of the values of the outgoing internal
messages; outgoing messages of any other type never contribute (removing
them all leaves the total unchanged), and a transaction with no outgoing
internal message has `sentTotal` zero. -/
theorem sent_total_c9 (tx : TransactionM) :
    calculateSentTotal tx = (tx.outMessages.filterMap internalValue).sum ∧
    calculateSentTotal tx =
      calculateSentTotal
        { tx with outMessages := tx.outMessages.filter fun m => (internalValue m).isSome } ∧
    (tx.outMessages.filterMap internalValue = [] → calculateSentTotal tx = 0) := by
  have h1 : calculateSentTotal tx = (tx.outMessages.filterMap internalValue).sum := by
    unfold calculateSentTotal
    rw [sentTotal_foldl]
    simp
  refine ⟨h1, ?_, ?_⟩
  · show calculateSentTotal tx = calculateSentTotal
      { tx with outMessages := tx.outMessages.filter fun m => (internalValue m).isSome }
    have h2 : calculateSentTotal
        { tx with outMessages := tx.outMessages.filter fun m => (internalValue m).isSome }
        = ((tx.outMessages.filter fun m => (internalValue m).isSome).filterMap
            internalValue).sum := by
      unfold calculateSentTotal
      rw [sentTotal_foldl]
      simp
    rw [h1, h2, filterMap_internal_filter]
  · intro hnil
    rw [h1, hnil]
    rfl

/-- Witness for C9: two internal messages (values 5 and 7) and one external
out-message (which contributes nothing). -/
theorem sent_total_c9_witness :
    calculateSentTotal
      ⟨0, 0, none,
        [⟨MsgInfoM.internal (AddrM.addr 1) (AddrM.addr 2) 5 false, none, ⟨[]⟩⟩,
         ⟨MsgInfoM.externalOut (AddrM.addr 1) none, none, ⟨[]⟩⟩,
         ⟨MsgInfoM.internal (AddrM.addr 1) (AddrM.addr 3) 7 false, none, ⟨[]⟩⟩],
        0, 0, TxDescriptionM.other "x"⟩ = 12 ∧
    calculateSentTotal ⟨0, 0, none,
      [⟨MsgInfoM.externalOut (AddrM.addr 1) none, none, ⟨[]⟩⟩], 0, 0,
      TxDescriptionM.other "x"⟩ = 0 := by
  constructor
  · rw [(sent_total_c9 _).1]
    rfl
  · exact (sent_total_c9 _).2.2 (by decide)

/-! ## `txOpcode` (src/unnamed/part_001 lines 246-263) -/

/-- Whether the in-message is a bounced internal message (the
`isBounced` computation of `txOpcode`). -/
def isBouncedMsg (inMessage : MessageM) : Bool :=
  match inMessage.info with
  | MsgInfoM.internal _ _ _ bounced => bounced
  | _ => false

/-- From `src/unnamed/part_001` lines 246-263, `txOpcode`: take the
in-message body as a slice; when the message is a bounced internal message,
first skip 32 bits with `slice.loadUint(32)` (which throws when fewer than 32
bits are available); then, when at least 32 bits remain, read the 32-bit
opcode, otherwise leave it `undefined`. -/
def txOpcode (transaction : TransactionM) : Except String (Option Nat) :=
  match transaction.inMessage with
  | none => Except.ok none
  | some inMessage =>
    if isBouncedMsg inMessage then
      match loadUintE inMessage.body.bits 32 with
      | Except.error e => Except.error e
      | Except.ok (_, rest) =>
        if 32 ≤ rest.length then
          match loadUintE rest 32 with
          | Except.error e => Except.error e
          | Except.ok (v, _) => Except.ok (some v)
        else Except.ok none
    else
      if 32 ≤ inMessage.body.bits.length then
        match loadUintE inMessage.body.bits 32 with
        | Except.error e => Except.error e
        | Except.ok (v, _) => Except.ok (some v)
      else Except.ok none

/-- A concrete transaction whose in-message is a bounced internal message
with an empty body. -/
def c10BouncedEmptyTx : TransactionM :=
  ⟨1, 0,
    some ⟨MsgInfoM.internal (AddrM.addr 1) (AddrM.addr 2) 0 true, none, ⟨[]⟩⟩,
    [], 0, 0, TxDescriptionM.generic ComputePhaseM.skipped none⟩

/-- Counterexample to C10 as stated: for a bounced internal in-message whose
body is shorter than 32 bits, the 32-bit skip itself throws, so the code
produces an error instead of the undefined opcode the claim promises. -/
theorem tx_opcode_c10_counterexample :
    txOpcode c10BouncedEmptyTx = Except.error "Index out of bounds" ∧
    txOpcode c10BouncedEmptyTx ≠ Except.ok none := by
  constructor
  · rfl
  · intro h
    cases h

/-- C10 (amended): with no in-message the opcode is undefined; for a
non-bounced in-message the opcode is the first 32 bits of the body when the
body has at least 32 bits and undefined otherwise; for a bounced internal
in-message the first 32 bits are skipped and the opcode is the next 32 bits
when the body has at least 64 bits, undefined when it has between 32 and 63
bits, and the skip itself fails with an error when the body is shorter than
32 bits. -/
theorem tx_opcode_c10 (t : TransactionM) :
    (t.inMessage = none → txOpcode t = Except.ok none) ∧
    (∀ m, t.inMessage = some m → isBouncedMsg m = false →
      txOpcode t =
        if 32 ≤ m.body.bits.length then
          Except.ok (some (bitsToNat (m.body.bits.take 32)))
        else Except.ok none) ∧
    (∀ m, t.inMessage = some m → isBouncedMsg m = true →
      txOpcode t =
        if 64 ≤ m.body.bits.length then
          Except.ok (some (bitsToNat ((m.body.bits.drop 32).take 32)))
        else if 32 ≤ m.body.bits.length then Except.ok none
        else Except.error "Index out of bounds") := by
  have loadOk : ∀ (bits : List Bool) (n : Nat), n ≤ bits.length →
      loadUintE bits n = Except.ok (bitsToNat (bits.take n), bits.drop n) := by
    intro bits n h
    unfold loadUintE
    rw [if_pos h]
  have loadErr : ∀ (bits : List Bool) (n : Nat), ¬n ≤ bits.length →
      loadUintE bits n = Except.error "Index out of bounds" := by
    intro bits n h
    unfold loadUintE
    rw [if_neg h]
  refine ⟨?_, ?_, ?_⟩
  · intro h
    unfold txOpcode
    rw [h]
  · intro m hm hb
    unfold txOpcode
    rw [hm]
    simp only [hb, Bool.false_eq_true, if_false]
    by_cases hlen : 32 ≤ m.body.bits.length
    · rw [if_pos hlen, if_pos hlen, loadOk _ _ hlen]
    · rw [if_neg hlen, if_neg hlen]
  · intro m hm hb
    unfold txOpcode
    rw [hm]
    simp only [hb, if_true]
    have hdrop : (m.body.bits.drop 32).length = m.body.bits.length - 32 :=
      List.length_drop 32 m.body.bits
    by_cases hskip : 32 ≤ m.body.bits.length
    · rw [loadOk _ _ hskip]
      show (if 32 ≤ (m.body.bits.drop 32).length then
          match loadUintE (m.body.bits.drop 32) 32 with
          | Except.error e => Except.error e
          | Except.ok (v, _) => Except.ok (some v)
        else Except.ok none) = _
      by_cases hrem : 32 ≤ (m.body.bits.drop 32).length
      · rw [if_pos hrem, loadOk _ _ hrem]
        show Except.ok (some (bitsToNat ((m.body.bits.drop 32).take 32))) = _
        rw [if_pos (show 64 ≤ m.body.bits.length by omega)]
      · rw [if_neg hrem, if_neg (show ¬64 ≤ m.body.bits.length by omega),
          if_pos hskip]
    · rw [loadErr _ _ hskip]
      show Except.error "Index out of bounds" = _
      rw [if_neg (show ¬64 ≤ m.body.bits.length by omega), if_neg hskip]

/-- Witness for the amended C10 on a bounced internal message with a 64-bit
body: opcode bits 32-63 (all ones, value 4294967295). -/
theorem tx_opcode_c10_witness :
    txOpcode
      ⟨1, 0,
        some ⟨MsgInfoM.internal (AddrM.addr 1) (AddrM.addr 2) 0 true, none,
          ⟨List.replicate 32 false ++ List.replicate 32 true⟩⟩,
        [], 0, 0, TxDescriptionM.generic ComputePhaseM.skipped none⟩
      = Except.ok (some 4294967295) ∧
    txOpcode
      ⟨1, 0,
        some ⟨MsgInfoM.externalIn none (AddrM.addr 2), none, ⟨[true]⟩⟩,
        [], 0, 0, TxDescriptionM.generic ComputePhaseM.skipped none⟩
      = Except.ok none := by
  constructor
  · rw [(tx_opcode_c10 _).2.2
      ⟨MsgInfoM.internal (AddrM.addr 1) (AddrM.addr 2) 0 true, none,
        ⟨List.replicate 32 false ++ List.replicate 32 true⟩⟩ rfl (by decide)]
    rfl
  · rw [(tx_opcode_c10 _).2.1
      ⟨MsgInfoM.externalIn none (AddrM.addr 2), none, ⟨[true]⟩⟩ rfl (by decide)]
    rfl

/-! ## `emulatePreviousTransactions` (src/src/methods.ts lines 517-545) -/

/-- Success payload of a sandbox `EmulationResult` (`shardAccount` and
`transaction` are base64-encoded strings in the source; they are modelled
here already decoded, since the decode is an external library capability). -/
structure EmuSuccessM where
  shardAccount : ShardAccountM
  transaction : TransactionM
  actions : Option TsCell
  vmLog : String
deriving DecidableEq

/-- The `result` field of a sandbox `EmulationResult`: success with payload
or failure with an error string. -/
inductive EmuResultInnerM where
  | success (r : EmuSuccessM)
  | failure (error : String)
deriving DecidableEq

/-- A sandbox `EmulationResult`: the tagged result plus the two log
streams. -/
structure EmulationResultM where
  result : EmuResultInnerM
  logs : String
  debugLogs : String
deriving DecidableEq

/-- The data carried by the `Error` thrown by
`emulatePreviousTransactions` (its message interpolates exactly the failing
transaction's `lt` and both log streams). -/
structure ReplayError where
  lt : Nat
  logs : String
  debugLogs : String
deriving DecidableEq

/-- The balance re-read from a snapshot's account storage: models
`shardAccount.account?.storage.balance.coins` followed by `?? 0n`. -/
def balanceOfSnap (s : ShardAccountM) : Nat :=
  (match s.account with
    | some a => some a.storage.balance
    | none => none).getD 0

/-- From `src/src/methods.ts` lines 517-545: sequentially emulate the listed
transactions (oldest to newest); throw at the first non-success result;
after each success the returned shard account becomes the next input and
the carried balance is re-read from it (`balanceOfSnap`).  `emulate` models
the engine helper produced by `prepareEmulator`. -/
def emulatePreviousTransactions
    (emulate : TransactionM → ShardAccountM → EmulationResultM) :
    Nat → List TransactionM → ShardAccountM → Except ReplayError (Nat × ShardAccountM)
  | prevBalance, [], shardAccount => Except.ok (prevBalance, shardAccount)
  | _, tx :: rest, shardAccount =>
    match (emulate tx shardAccount).result with
    | EmuResultInnerM.failure _ =>
      Except.error
        ⟨tx.lt, (emulate tx shardAccount).logs, (emulate tx shardAccount).debugLogs⟩
    | EmuResultInnerM.success r =>
      emulatePreviousTransactions emulate (balanceOfSnap r.shardAccount) rest r.shardAccount

/-- The snapshot produced by one successful engine invocation (used to state
the chaining of snapshots; on a failure it is never used). -/
def stepSnap (emulate : TransactionM → ShardAccountM → EmulationResultM)
    (snap : ShardAccountM) (tx : TransactionM) : ShardAccountM :=
  match (emulate tx snap).result with
  | EmuResultInnerM.success r => r.shardAccount
  | EmuResultInnerM.failure _ => snap

/-- The snapshot obtained by chaining the engine over a transaction list. -/
def chainSnap (emulate : TransactionM → ShardAccountM → EmulationResultM)
    (snap : ShardAccountM) (txs : List TransactionM) : ShardAccountM :=
  txs.foldl (stepSnap emulate) snap

/-- Whether every chained engine invocation over the list succeeds. -/
def allSucceed (emulate : TransactionM → ShardAccountM → EmulationResultM) :
    ShardAccountM → List TransactionM → Bool
  | _, [] => true
  | snap, tx :: rest =>
    match (emulate tx snap).result with
    | EmuResultInnerM.success r => allSucceed emulate r.shardAccount rest
    | EmuResultInnerM.failure _ => false

/-- C5: replaying an empty sequence of preceding transactions returns the
starting balance and snapshot unchanged, and the engine is never invoked
(the result does not depend on the engine at all). -/
theorem replay_empty_c5
    (emulate emulate' : TransactionM → ShardAccountM → EmulationResultM)
    (prevBalance : Nat) (shardAccount : ShardAccountM) :
    emulatePreviousTransactions emulate prevBalance [] shardAccount =
      Except.ok (prevBalance, shardAccount) ∧
    emulatePreviousTransactions emulate prevBalance [] shardAccount =
      emulatePreviousTransactions emulate' prevBalance [] shardAccount :=
  ⟨rfl, rfl⟩

/-- When every chained invocation succeeds, the replayer returns the chained
final snapshot, and (for a non-empty list) the balance re-read from it. -/
theorem replay_all_success (emulate : TransactionM → ShardAccountM → EmulationResultM)
    (txs : List TransactionM) (b : Nat) (snap : ShardAccountM)
    (h : allSucceed emulate snap txs = true) :
    emulatePreviousTransactions emulate b txs snap =
      Except.ok
        ((match txs with
          | [] => b
          | _ :: _ => balanceOfSnap (chainSnap emulate snap txs)),
          chainSnap emulate snap txs) := by
  induction txs generalizing b snap with
  | nil => rfl
  | cons tx rest ih =>
    cases hres : (emulate tx snap).result with
    | failure e =>
      unfold allSucceed at h
      rw [hres] at h
      cases h
    | success r =>
      unfold allSucceed at h
      rw [hres] at h
      have hchain : chainSnap emulate snap (tx :: rest) = chainSnap emulate r.shardAccount rest := by
        unfold chainSnap
        rw [List.foldl_cons]
        congr 1
        unfold stepSnap
        rw [hres]
      have hstep : emulatePreviousTransactions emulate b (tx :: rest) snap =
          emulatePreviousTransactions emulate (balanceOfSnap r.shardAccount) rest
            r.shardAccount := by
        simp only [emulatePreviousTransactions, hres]
      rw [hstep, ih _ _ h, hchain]
      cases rest with
      | nil =>
        unfold chainSnap
        simp
      | cons tx2 rest2 => rfl

/-- When the invocations before `txf` all succeed and the invocation at `txf`
fails, the replayer stops with the failing transaction's data, regardless of
what follows `txf`. -/
theorem replay_fail_fast (emulate : TransactionM → ShardAccountM → EmulationResultM)
    (b : Nat) (snap : ShardAccountM) (pre post : List TransactionM)
    (txf : TransactionM) (err : String)
    (hpre : allSucceed emulate snap pre = true)
    (hfail : (emulate txf (chainSnap emulate snap pre)).result = EmuResultInnerM.failure err) :
    emulatePreviousTransactions emulate b (pre ++ txf :: post) snap =
      Except.error
        ⟨txf.lt, (emulate txf (chainSnap emulate snap pre)).logs,
          (emulate txf (chainSnap emulate snap pre)).debugLogs⟩ := by
  induction pre generalizing b snap with
  | nil =>
    unfold chainSnap at hfail ⊢
    simp only [List.foldl_nil] at hfail ⊢
    rw [List.nil_append]
    have hstep : emulatePreviousTransactions emulate b (txf :: post) snap =
        Except.error ⟨txf.lt, (emulate txf snap).logs, (emulate txf snap).debugLogs⟩ := by
      simp only [emulatePreviousTransactions, hfail]
    exact hstep
  | cons tx rest ih =>
    unfold allSucceed at hpre
    cases hres : (emulate tx snap).result with
    | failure e =>
      rw [hres] at hpre
      cases hpre
    | success r =>
      rw [hres] at hpre
      have hchain : chainSnap emulate snap (tx :: rest) = chainSnap emulate r.shardAccount rest := by
        unfold chainSnap
        rw [List.foldl_cons]
        congr 1
        unfold stepSnap
        rw [hres]
      rw [hchain] at hfail
      rw [List.cons_append]
      have hstep : emulatePreviousTransactions emulate b ((tx :: rest) ++ txf :: post) snap =
          emulatePreviousTransactions emulate (balanceOfSnap r.shardAccount)
            (rest ++ txf :: post) r.shardAccount := by
        simp only [List.cons_append, emulatePreviousTransactions, hres]
        rfl
      rw [List.cons_append] at hstep
      rw [hstep, ih _ _ hpre hfail, hchain]

/-- C6: for a non-empty replay list the replayer chains each successful
step's returned snapshot into the next invocation, throws at the first
non-success invocation with the failing transaction's logical time and both
log streams, never performs the invocations after the failing one (the
result does not depend on the tail after the failure), and after a fully
successful run returns the balance re-read from the final snapshot's
account storage. -/
theorem replay_order_c6 (emulate : TransactionM → ShardAccountM → EmulationResultM)
    (b : Nat) (snap : ShardAccountM) (pre post post' : List TransactionM)
    (txf tx0 : TransactionM) (rest : List TransactionM) (err : String) :
    (allSucceed emulate snap pre = true →
      (emulate txf (chainSnap emulate snap pre)).result = EmuResultInnerM.failure err →
      emulatePreviousTransactions emulate b (pre ++ txf :: post) snap =
        Except.error
          ⟨txf.lt, (emulate txf (chainSnap emulate snap pre)).logs,
            (emulate txf (chainSnap emulate snap pre)).debugLogs⟩ ∧
      emulatePreviousTransactions emulate b (pre ++ txf :: post) snap =
        emulatePreviousTransactions emulate b (pre ++ txf :: post') snap) ∧
    (allSucceed emulate snap (tx0 :: rest) = true →
      emulatePreviousTransactions emulate b (tx0 :: rest) snap =
        Except.ok (balanceOfSnap (chainSnap emulate snap (tx0 :: rest)),
          chainSnap emulate snap (tx0 :: rest))) := by
  constructor
  · intro hpre hfail
    constructor
    · exact replay_fail_fast emulate b snap pre post txf err hpre hfail
    · rw [replay_fail_fast emulate b snap pre post txf err hpre hfail,
        replay_fail_fast emulate b snap pre post' txf err hpre hfail]
  · intro h
    exact replay_all_success emulate (tx0 :: rest) b snap h

/-- Minimal transaction with a given logical time (for the C6 witness). -/
def c6Tx (lt : Nat) : TransactionM :=
  ⟨lt, 0, none, [], 0, 0, TxDescriptionM.other "x"⟩

/-- Snapshot with a given balance (for the C6 witness). -/
def c6Snap (balance : Nat) : ShardAccountM :=
  ⟨some ⟨⟨balance, AccountStateM.uninit⟩⟩⟩

/-- Concrete engine oracle for the C6 witness: succeeds on lt 1 (new balance
90) and lt 3 (new balance 80), fails on lt 2. -/
def c6Emulate : TransactionM → ShardAccountM → EmulationResultM :=
  fun tx _ =>
    if tx.lt = 1 then ⟨EmuResultInnerM.success ⟨c6Snap 90, c6Tx 1, none, "v"⟩, "l1", "d1"⟩
    else if tx.lt = 2 then ⟨EmuResultInnerM.failure "boom", "l2", "d2"⟩
    else ⟨EmuResultInnerM.success ⟨c6Snap 80, c6Tx 3, none, "v"⟩, "l3", "d3"⟩

/-- Witness for C6: one successful step, then a failing one; the tail after
the failure does not matter, and a fully successful run re-reads the
balance. -/
theorem replay_order_c6_witness :
    emulatePreviousTransactions c6Emulate 100 [c6Tx 1, c6Tx 2, c6Tx 3] (c6Snap 100) =
      Except.error ⟨2, "l2", "d2"⟩ ∧
    emulatePreviousTransactions c6Emulate 100 [c6Tx 1, c6Tx 2, c6Tx 3] (c6Snap 100) =
      emulatePreviousTransactions c6Emulate 100 [c6Tx 1, c6Tx 2] (c6Snap 100) ∧
    emulatePreviousTransactions c6Emulate 100 [c6Tx 1] (c6Snap 100) =
      Except.ok (90, c6Snap 90) := by
  have h := replay_order_c6 c6Emulate 100 (c6Snap 100) [c6Tx 1] [c6Tx 3] []
    (c6Tx 2) (c6Tx 1) [] "boom"
  have h1 := h.1 rfl rfl
  have h2 := h.2 rfl
  exact ⟨h1.1, h1.2, h2⟩

/-! ## `computeFinalData` (src/src/methods.ts lines 606-670) -/

/-- Models `ComputeInfo` from `src/src/types.ts`: the literal `"skipped"` or a
structured record. -/
inductive ComputeInfoM where
  | skipped
  | info (success : Bool) (exitCode : Int) (vmSteps : Nat) (gasUsed : Nat) (gasFees : Nat)
deriving DecidableEq

/-- Models `TraceMoneyResult` from `src/src/types.ts`. -/
structure TraceMoneyM where
  balanceBefore : Nat
  sentTotal : Nat
  totalFees : Nat
  balanceAfter : Nat
deriving DecidableEq

/-- The record returned by `computeFinalData`. -/
structure FinalDataM where
  sender : Option AddrM
  contract : AddrM
  money : TraceMoneyM
  emulatedTx : TransactionM
  amount : Option Nat
  computeInfo : ComputeInfoM
deriving DecidableEq

/-- From `src/src/methods.ts` lines 606-670: decode the successful emulation
result into money movement, compute-phase summary and convenience fields.
Throws when the emulated transaction has no in-message, when `src` is
present but not an `Address`, when `dest` is not an `Address`, or when the
transaction description is not "generic". -/
def computeFinalData (res : EmuSuccessM) (balanceBefore : Nat) :
    Except String FinalDataM :=
  match res.transaction.inMessage with
  | none => Except.error "No in_message was found in result tx"
  | some inMsg =>
    if (match inMsg.info.src with
        | some s => !s.isAddress
        | none => false) then
      Except.error "Invalid src address"
    else
      match inMsg.info.dest with
      | some (AddrM.addr d) =>
        match res.transaction.description with
        | TxDescriptionM.generic computePhase actionPhase =>
          Except.ok
            { sender := inMsg.info.src
              contract := AddrM.addr d
              money :=
                { balanceBefore := balanceBefore
                  sentTotal := calculateSentTotal res.transaction
                  totalFees := res.transaction.totalFees
                  balanceAfter := balanceOfSnap res.shardAccount }
              emulatedTx := res.transaction
              amount :=
                match inMsg.info with
                | MsgInfoM.internal _ _ value _ => some value
                | _ => none
              computeInfo :=
                match computePhase with
                | ComputePhaseM.skipped => ComputeInfoM.skipped
                | ComputePhaseM.vm success exitCode vmSteps gasUsed gasFees =>
                  ComputeInfoM.info success
                    (if exitCode = 0 then
                      (match actionPhase with
                        | some ap => ap.resultCode
                        | none => 0)
                    else exitCode)
                    vmSteps gasUsed gasFees }
        | TxDescriptionM.other typeName =>
          Except.error
            ("TxTracer doesn't support non-generic transaction. Given type: " ++ typeName)
      | _ => Except.error "Invalid dest address"

/-- A successful `computeFinalData` reports the decoded emulated transaction
itself. -/
theorem computeFinalData_emulatedTx (res : EmuSuccessM) (b : Nat) (d : FinalDataM)
    (hok : computeFinalData res b = Except.ok d) : d.emulatedTx = res.transaction := by
  unfold computeFinalData at hok
  split at hok
  · cases hok
  · split at hok
    · cases hok
    · split at hok
      · split at hok
        · injection hok with h
          rw [← h]
        · cases hok
      · cases hok

/-- C8: the compute-phase summary is `"skipped"` exactly when the compute
phase was skipped; otherwise its exit code is the compute phase's exit code
when non-zero, and falls back to the action phase's result code (zero when
no action phase exists) when the compute exit code is zero. -/
theorem compute_info_c8 (res : EmuSuccessM) (balanceBefore : Nat)
    (cp : ComputePhaseM) (ap : Option ActionPhaseM) (d : FinalDataM)
    (hdesc : res.transaction.description = TxDescriptionM.generic cp ap)
    (hok : computeFinalData res balanceBefore = Except.ok d) :
    (d.computeInfo = ComputeInfoM.skipped ↔ cp = ComputePhaseM.skipped) ∧
    (∀ s ec st g f, cp = ComputePhaseM.vm s ec st g f →
      d.computeInfo = ComputeInfoM.info s
        (if ec = 0 then (match ap with | some a => a.resultCode | none => 0) else ec)
        st g f) := by
  unfold computeFinalData at hok
  split at hok
  · cases hok
  · split at hok
    · cases hok
    · split at hok
      · split at hok
        · rename_i cp2 ap2 heq
          rw [hdesc] at heq
          injection heq with hcp hap
          subst hcp
          subst hap
          injection hok with h
          subst h
          constructor
          · cases cp with
            | skipped => simp
            | vm s ec st g f => simp
          · intro s ec st g f hcp
            subst hcp
            cases ap with
            | some a => rfl
            | none => rfl
        · cases hok
      · cases hok

/-- Shared concrete fixture: an emulated transaction with an internal
in-message, no out-messages, total fees 3, resulting state hash 77, and a
generic description whose compute phase ran with exit code 9 while the
action phase reports result code 37. -/
def fixTx : TransactionM :=
  ⟨5, 1000, some ⟨MsgInfoM.internal (AddrM.addr 1) (AddrM.addr 2) 10 false, none, ⟨[]⟩⟩,
    [], 3, 77, TxDescriptionM.generic (ComputePhaseM.vm false 9 1 2 3) (some ⟨37⟩)⟩

/-- Shared concrete fixture: successful engine payload carrying `fixTx` and
an end snapshot with balance 50. -/
def fixSuccess : EmuSuccessM := ⟨c6Snap 50, fixTx, none, "vm"⟩

/-- The `FinalDataM` value that `computeFinalData fixSuccess 100`
produces. -/
def fixFinalData : FinalDataM :=
  ⟨some (AddrM.addr 1), AddrM.addr 2, ⟨100, 0, 3, 50⟩, fixTx, some 10,
    ComputeInfoM.info false 9 1 2 3⟩

/-- Witness for C8 at the concrete fixture (non-zero compute exit code 9 is
kept even though the action phase reports 37). -/
theorem compute_info_c8_witness :
    computeFinalData fixSuccess 100 = Except.ok fixFinalData ∧
    fixFinalData.computeInfo = ComputeInfoM.info false 9 1 2 3 ∧
    fixFinalData.computeInfo ≠ ComputeInfoM.skipped := by
  refine ⟨rfl, ?_, ?_⟩
  · have h := (compute_info_c8 fixSuccess 100 (ComputePhaseM.vm false 9 1 2 3) (some ⟨37⟩)
      fixFinalData rfl rfl).2 false 9 1 2 3 rfl
    simpa using h
  · have h := (compute_info_c8 fixSuccess 100 (ComputePhaseM.vm false 9 1 2 3) (some ⟨37⟩)
      fixFinalData rfl rfl).1
    intro hcontra
    cases (h.mp hcontra)

/-! ## Trace assembly (src/unnamed/part_001 lines 203-243) -/

/-- From `src/src/methods.ts` lines 680-689, `findFinalActions`: the raw
`c5` action-register cell of the emulation result, `undefined` when the
engine reported none.  (The decoded `OutAction` list produced by
`loadOutList` is an external-library decode and is not modelled; no embedded
claim reads it.) -/
def findFinalActions (res : EmuSuccessM) : Option TsCell :=
  match res.actions with
  | none => none
  | some c => some c

/-- Models `TraceInMessage` from `src/src/types.ts` (plus the `opcode` field the
runner adds in `src/unnamed/part_001`). -/
structure TraceInMessageM where
  sender : Option AddrM
  contract : AddrM
  amount : Option Nat
  opcode : Option Nat
deriving DecidableEq

/-- Models `TraceEmulatedTx` from `src/src/types.ts` (the `raw` hex field and the
decoded action list are external-library encodes and are not modelled). -/
structure TraceEmulatedTxM where
  utime : Nat
  lt : Nat
  computeInfo : ComputeInfoM
  executorLogs : String
  c5 : Option TsCell
  vmLogs : String
deriving DecidableEq

/-- Models `TraceResult` from `src/src/types.ts`. -/
structure TraceResultM where
  stateUpdateHashOk : Bool
  codeCell : Option TsCell
  originalCodeCell : Option TsCell
  inMsg : TraceInMessageM
  money : TraceMoneyM
  emulatedTx : TraceEmulatedTxM
deriving DecidableEq

/-- From `src/unnamed/part_001` lines 203-243, the tail of `retraceBaseTx`
after the target transaction has been emulated: fail when the engine
reported non-success; otherwise assemble the `TraceResult`, comparing the
emulated transaction's resulting state hash with the real one
(`stateUpdateHashOk`), and taking `codeCell := loadedCode ?? codeCell`.
`txOpcode ourTx` can itself throw (see C10), in which case the error
propagates. -/
def retraceBaseTxFinish (txRes : EmulationResultM) (ourTx : TransactionM)
    (prevBalance : Nat) (loadedCode codeCell : Option TsCell) :
    Except String TraceResultM :=
  match txRes.result with
  | EmuResultInnerM.failure e => Except.error ("Transaction failed: " ++ e)
  | EmuResultInnerM.success r =>
    match computeFinalData r prevBalance with
    | Except.error e => Except.error e
    | Except.ok d =>
      match txOpcode ourTx with
      | Except.error e => Except.error e
      | Except.ok opcode =>
        Except.ok
          { stateUpdateHashOk :=
              decide (d.emulatedTx.stateUpdateNewHash = ourTx.stateUpdateNewHash)
            codeCell := (match loadedCode with
              | some c => some c
              | none => codeCell)
            originalCodeCell := codeCell
            inMsg := ⟨d.sender, d.contract, d.amount, opcode⟩
            money := d.money
            emulatedTx := ⟨d.emulatedTx.now, d.emulatedTx.lt, d.computeInfo, txRes.logs,
              findFinalActions r, r.vmLog⟩ }

/-- C3: when the target emulation succeeds (and the report assembly itself
does not reject the transaction), a state-hash mismatch is not an error —
the pipeline still returns a complete report, whose `stateUpdateHashOk`
flag is true exactly when the emulated and real resulting state hashes are
equal. -/
theorem state_hash_flag_c3 (txRes : EmulationResultM) (r : EmuSuccessM)
    (ourTx : TransactionM) (prevBalance : Nat) (loadedCode codeCell : Option TsCell)
    (d : FinalDataM) (opc : Option Nat)
    (hs : txRes.result = EmuResultInnerM.success r)
    (hd : computeFinalData r prevBalance = Except.ok d)
    (ho : txOpcode ourTx = Except.ok opc) :
    ∃ report, retraceBaseTxFinish txRes ourTx prevBalance loadedCode codeCell =
        Except.ok report ∧
      (report.stateUpdateHashOk = true ↔
        r.transaction.stateUpdateNewHash = ourTx.stateUpdateNewHash) := by
  have hrep : retraceBaseTxFinish txRes ourTx prevBalance loadedCode codeCell =
      Except.ok
        { stateUpdateHashOk :=
            decide (d.emulatedTx.stateUpdateNewHash = ourTx.stateUpdateNewHash)
          codeCell := (match loadedCode with
            | some c => some c
            | none => codeCell)
          originalCodeCell := codeCell
          inMsg := ⟨d.sender, d.contract, d.amount, opc⟩
          money := d.money
          emulatedTx := ⟨d.emulatedTx.now, d.emulatedTx.lt, d.computeInfo, txRes.logs,
            findFinalActions r, r.vmLog⟩ } := by
    simp only [retraceBaseTxFinish, hs, hd, ho]
  refine ⟨_, hrep, ?_⟩
  show decide (d.emulatedTx.stateUpdateNewHash = ourTx.stateUpdateNewHash) = true ↔
    r.transaction.stateUpdateNewHash = ourTx.stateUpdateNewHash
  rw [decide_eq_true_eq, computeFinalData_emulatedTx r prevBalance d hd]

/-- Shared concrete fixture: the real on-chain transaction, identical to the
emulated one except for its resulting state hash (78 instead of 77). -/
def fixOurTx : TransactionM := { fixTx with stateUpdateNewHash := 78 }

/-- Shared concrete fixture: successful emulation result wrapping
`fixSuccess`. -/
def fixEmuResult : EmulationResultM := ⟨EmuResultInnerM.success fixSuccess, "logs", "dbg"⟩

/-- Witness for C3 at the concrete fixture, where the two state hashes
differ (77 against 78). -/
theorem state_hash_flag_c3_witness :
    ∃ report, retraceBaseTxFinish fixEmuResult fixOurTx 100 none none = Except.ok report ∧
      (report.stateUpdateHashOk = true ↔
        fixSuccess.transaction.stateUpdateNewHash = fixOurTx.stateUpdateNewHash) :=
  state_hash_flag_c3 fixEmuResult fixSuccess fixOurTx 100 none none fixFinalData none
    rfl rfl rfl

/-! ## `collectUsedLibraries` (src/src/methods.ts lines 373-430) -/

/-- Unpacking of a fragment classification: the shape condition holds and
the hash is the trailing 256 bits. -/
theorem specFragmentClassify_some (c : TsCell) (h : Nat)
    (hc : specFragmentClassify c = some h) :
    (c.bits.length = 264 ∧ bitsToNat (c.bits.take 8) = 2) ∧
      bitsToNat ((c.bits.drop 8).take 256) = h := by
  unfold specFragmentClassify at hc
  split at hc
  · exact ⟨by assumption, by injection hc⟩
  · cases hc

/-- Behaviour of `addMaybeExoticLibrary` on a cell that classifies as a fragment whose
library the fetch oracle knows. -/
theorem addMaybeExoticLibrary_classified (fetch : Nat → Option TsCell) (libs : LibDict)
    (c : TsCell) (h : Nat) (lib : TsCell)
    (hc : specFragmentClassify c = some h) (hf : fetch h = some lib) :
    addMaybeExoticLibrary fetch libs (some c) = Except.ok (dictSet libs h lib, some lib) := by
  obtain ⟨hcond, hh⟩ := specFragmentClassify_some c h hc
  rw [addMaybeExoticLibrary_some_eq, if_pos hcond, hh, hf]

/-- Behaviour of `addMaybeExoticLibrary` on a cell that does not classify as a
fragment. -/
theorem addMaybeExoticLibrary_notFragment (fetch : Nat → Option TsCell) (libs : LibDict)
    (c : TsCell) (hc : specFragmentClassify c = none) :
    addMaybeExoticLibrary fetch libs (some c) = Except.ok (libs, none) := by
  unfold specFragmentClassify at hc
  split at hc
  · cases hc
  · rw [addMaybeExoticLibrary_some_eq, if_neg (by assumption)]

/-- From `src/src/methods.ts` lines 373-430, `collectUsedLibraries`:
scan the account's current code (when the account is active) with
`addMaybeExoticLibrary`; then, for the incoming message's `StateInit` (when
present), run `loadedCellCode ??= await addMaybeExoticLibrary(init.code)` —
the JavaScript nullish assignment evaluates its right-hand side (and hence
scans the `StateInit` code) only when `loadedCellCode` is still undefined;
finally merge the caller-supplied additional libraries and serialize the
dictionary (`none` when it is empty). -/
def collectUsedLibraries (fetch : Nat → Option TsCell) (account : ShardAccountM)
    (tx : TransactionM) (additionalLibs : List (Nat × TsCell)) :
    Except String (Option LibDict × Option TsCell) :=
  match (match account.account with
    | some a =>
      match a.storage.state with
      | AccountStateM.active code _ => addMaybeExoticLibrary fetch [] code
      | _ => Except.ok ([], none)
    | none => Except.ok ([], none)) with
  | Except.error e => Except.error e
  | Except.ok (libs1, loaded1) =>
    match (match tx.inMessage with
      | some m =>
        match m.init with
        | some init =>
          match loaded1 with
          | some c => Except.ok (libs1, some c)
          | none => addMaybeExoticLibrary fetch libs1 init.code
        | none => Except.ok (libs1, loaded1)
      | none => Except.ok (libs1, loaded1)) with
    | Except.error e => Except.error e
    | Except.ok (libs2, loaded2) =>
      if (additionalLibs.foldl (fun d kv => dictSet d kv.1 kv.2) libs2).length = 0 then
        Except.ok (none, loaded2)
      else
        Except.ok (some (additionalLibs.foldl (fun d kv => dictSet d kv.1 kv.2) libs2),
          loaded2)

/-- The `dictSet` operation never shrinks the dictionary. -/
theorem dictSet_length (d : LibDict) (k : Nat) (v : TsCell) :
    d.length ≤ (dictSet d k v).length := by
  unfold dictSet
  split
  · rw [List.length_map]
  · rw [List.length_append]
    omega

/-- Merging additional libraries never shrinks the dictionary. -/
theorem foldl_dictSet_length (l : List (Nat × TsCell)) (d : LibDict) :
    d.length ≤ (l.foldl (fun d kv => dictSet d kv.1 kv.2) d).length := by
  induction l generalizing d with
  | nil => exact Nat.le_refl _
  | cons kv rest ih =>
    rw [List.foldl_cons]
    exact Nat.le_trans (dictSet_length d kv.1 kv.2) (ih _)

/-- Concrete 264-bit library-fragment cell with hash 1 (for the C4
counterexample: a second fragment distinct from `c1FragCell`). -/
def c4FragCellB : TsCell :=
  ⟨List.replicate 6 false ++ [true, false] ++ List.replicate 255 false ++ [true]⟩

/-- Concrete fetch oracle knowing the libraries with hashes 0 and 1. -/
def c4Fetch : Nat → Option TsCell :=
  fun h => if h = 0 then some ⟨[true]⟩ else if h = 1 then some ⟨[false]⟩ else none

/-- Concrete active account whose own code is the fragment with hash 0. -/
def c4Account : ShardAccountM :=
  ⟨some ⟨⟨100, AccountStateM.active (some c1FragCell) none⟩⟩⟩

/-- Concrete transaction whose in-message carries a `StateInit` whose code is
the fragment with hash 1. -/
def c4Tx : TransactionM :=
  ⟨1, 0,
    some ⟨MsgInfoM.internal (AddrM.addr 1) (AddrM.addr 2) 0 false,
      some ⟨some c4FragCellB, none⟩, ⟨[]⟩⟩,
    [], 0, 0, TxDescriptionM.other "x"⟩

/-- Counterexample to C4 as stated: the account's own code is a fragment
(hash 0) and the incoming `StateInit` code is a different fragment (hash 1)
that the fetch oracle knows, yet the scanner's resulting dictionary is
exactly the singleton for hash 0 — the `StateInit` code was never scanned,
because the nullish assignment short-circuits once the account-code scan
has set the resolved self code. -/
theorem collect_libraries_c4_counterexample :
    specFragmentClassify c4FragCellB = some 1 ∧
    c4Fetch 1 = some ⟨[false]⟩ ∧
    collectUsedLibraries c4Fetch c4Account c4Tx [] =
      Except.ok (some [(0, ⟨[true]⟩)], some ⟨[true]⟩) ∧
    (List.all [((0 : Nat), (⟨[true]⟩ : TsCell))] fun kv => kv.1 != 1) = true := by
  refine ⟨by decide, by decide, ?_, by decide⟩
  rfl

/-- C4 (amended): the scanner always scans the account's currently active
code cell, and when that code is itself a fragment its resolved content is
returned separately as the resolved self code while the `StateInit` code is
not scanned at all (the result is independent of the incoming message); the
`StateInit` code cell is scanned only when the account-code scan yielded no
fragment. -/
theorem collect_libraries_c4 (fetch : Nat → Option TsCell) (balance : Nat)
    (codeA : TsCell) (dataA : Option TsCell) (tx tx' : TransactionM)
    (hA hB : Nat) (libA libB : TsCell) (initB : StateInitM) (codeB : TsCell)
    (msg : MessageM) (addl : List (Nat × TsCell)) :
    (specFragmentClassify codeA = some hA → fetch hA = some libA →
      collectUsedLibraries fetch
          ⟨some ⟨⟨balance, AccountStateM.active (some codeA) dataA⟩⟩⟩ tx addl =
        Except.ok
          (some (addl.foldl (fun d kv => dictSet d kv.1 kv.2) (dictSet [] hA libA)),
            some libA) ∧
      collectUsedLibraries fetch
          ⟨some ⟨⟨balance, AccountStateM.active (some codeA) dataA⟩⟩⟩ tx addl =
        collectUsedLibraries fetch
          ⟨some ⟨⟨balance, AccountStateM.active (some codeA) dataA⟩⟩⟩ tx' addl) ∧
    (specFragmentClassify codeA = none →
      tx.inMessage = some msg → msg.init = some initB → initB.code = some codeB →
      specFragmentClassify codeB = some hB → fetch hB = some libB →
      collectUsedLibraries fetch
          ⟨some ⟨⟨balance, AccountStateM.active (some codeA) dataA⟩⟩⟩ tx addl =
        Except.ok
          (some (addl.foldl (fun d kv => dictSet d kv.1 kv.2) (dictSet [] hB libB)),
            some libB)) := by
  constructor
  · intro hcA hfA
    have hstep1 := addMaybeExoticLibrary_classified fetch [] codeA hA libA hcA hfA
    have hlen : ¬(addl.foldl (fun d kv => dictSet d kv.1 kv.2)
        (dictSet [] hA libA)).length = 0 := by
      have h1 : (dictSet [] hA libA).length = 1 := by
        unfold dictSet
        simp
      have h2 := foldl_dictSet_length addl (dictSet [] hA libA)
      omega
    have key : ∀ t : TransactionM,
        collectUsedLibraries fetch
            ⟨some ⟨⟨balance, AccountStateM.active (some codeA) dataA⟩⟩⟩ t addl =
          Except.ok
            (some (addl.foldl (fun d kv => dictSet d kv.1 kv.2) (dictSet [] hA libA)),
              some libA) := by
      intro t
      cases ht : t.inMessage with
      | none =>
        simp only [collectUsedLibraries, hstep1, ht]
        rw [if_neg hlen]
      | some m =>
        cases hi : m.init with
        | none =>
          simp only [collectUsedLibraries, hstep1, ht, hi]
          rw [if_neg hlen]
        | some init =>
          simp only [collectUsedLibraries, hstep1, ht, hi]
          rw [if_neg hlen]
    exact ⟨key tx, (key tx).trans (key tx').symm⟩
  · intro hcA hin hinit hcode hcB hfB
    have hstep1 := addMaybeExoticLibrary_notFragment fetch [] codeA hcA
    have hstep2 := addMaybeExoticLibrary_classified fetch [] codeB hB libB hcB hfB
    have hlen : ¬(addl.foldl (fun d kv => dictSet d kv.1 kv.2)
        (dictSet [] hB libB)).length = 0 := by
      have h1 : (dictSet [] hB libB).length = 1 := by
        unfold dictSet
        simp
      have h2 := foldl_dictSet_length addl (dictSet [] hB libB)
      omega
    simp only [collectUsedLibraries, hstep1, hin, hinit, hcode, hstep2]
    rw [if_neg hlen]

/-- Witness for the amended C4 at concrete cells: with a fragment account
code the incoming `StateInit` does not matter, and with a non-fragment
account code the `StateInit` fragment (hash 1) is resolved. -/
theorem collect_libraries_c4_witness :
    collectUsedLibraries c4Fetch c4Account c4Tx [] =
      collectUsedLibraries c4Fetch c4Account
        ⟨1, 0, none, [], 0, 0, TxDescriptionM.other "x"⟩ [] ∧
    collectUsedLibraries c4Fetch
        ⟨some ⟨⟨100, AccountStateM.active (some ⟨[true]⟩) none⟩⟩⟩ c4Tx [] =
      Except.ok (some [(1, ⟨[false]⟩)], some ⟨[false]⟩) := by
  constructor
  · exact ((collect_libraries_c4 c4Fetch 100 c1FragCell none c4Tx
      ⟨1, 0, none, [], 0, 0, TxDescriptionM.other "x"⟩ 0 1 ⟨[true]⟩ ⟨[false]⟩
      ⟨some c4FragCellB, none⟩ c4FragCellB
      ⟨MsgInfoM.internal (AddrM.addr 1) (AddrM.addr 2) 0 false,
        some ⟨some c4FragCellB, none⟩, ⟨[]⟩⟩ []).1 (by decide) (by decide)).2
  · exact (collect_libraries_c4 c4Fetch 100 ⟨[true]⟩ none c4Tx
      ⟨1, 0, none, [], 0, 0, TxDescriptionM.other "x"⟩ 0 1 ⟨[true]⟩ ⟨[false]⟩
      ⟨some c4FragCellB, none⟩ c4FragCellB
      ⟨MsgInfoM.internal (AddrM.addr 1) (AddrM.addr 2) 0 false,
        some ⟨some c4FragCellB, none⟩, ⟨[]⟩⟩ []).2 (by decide) rfl rfl rfl
      (by decide) (by decide)

/-! ## The retry controller `retrace` (src/unnamed/part_001 lines 57-121) -/

/-- One entry of a parsed VM stack dump: a cell (carrying its decoded
content; `Cell.fromHex` of the dumped BoC is an external-library decode) or
anything else. -/
inductive VmStackEntryM where
  | cellEntry (boc : TsCell)
  | otherEntry
deriving DecidableEq

/-- One parsed VM-log line, as produced by `logs.parse` of `ton-assembly`
(an external library): the constructors model the `$` tags the retry
controller inspects. -/
inductive VmLineM where
  | vmExceptionHandler
  | vmException (message : String)
  | vmExecute (instr : String)
  | vmStack (stack : List VmStackEntryM)
  | otherLine
deriving DecidableEq

/-- From `src/unnamed/part_001` lines 57-121, the retry controller
`retrace`, with the inner pipeline (`retraceBaseTx` at a given additional
library list) and the log parser as oracles: emulate once; return the result
unless the compute phase ran with exit code 9 and the last log lines match
the missing-library signature (exception-handler entry at `-2`, exception
entry "failed to load library cell" at `-3`, a `CTOS` execute entry at `-4`,
a stack entry at `-6`) with a cell on top of the dumped stack that
`tryLoadAsLibrary` resolves; in that case re-run the whole pipeline with the
resolved library appended.  The `fuel` parameter only bounds the re-entry
depth of the model (the source recursion is syntactically unbounded); it is
not consumed on any non-retry path. -/
def retraceGo (pipeline : List (Nat × TsCell) → Except String TraceResultM)
    (parseLogs : String → List VmLineM) (fetch : Nat → Option TsCell)
    (fuel : Nat) (additionalLibs : List (Nat × TsCell)) : Except String TraceResultM :=
  match pipeline additionalLibs with
  | Except.error e => Except.error e
  | Except.ok result =>
    match result.emulatedTx.computeInfo with
    | ComputeInfoM.skipped => Except.ok result
    | ComputeInfoM.info _ exitCode _ _ _ =>
      if exitCode = 0 then Except.ok result
      else if exitCode = 9 then
        match atNeg (parseLogs result.emulatedTx.vmLogs) 2,
            atNeg (parseLogs result.emulatedTx.vmLogs) 3,
            atNeg (parseLogs result.emulatedTx.vmLogs) 4,
            atNeg (parseLogs result.emulatedTx.vmLogs) 6 with
        | some VmLineM.vmExceptionHandler, some (VmLineM.vmException msg),
            some (VmLineM.vmExecute instr), some (VmLineM.vmStack st) =>
          if msg = "failed to load library cell" ∧ instr = "CTOS" then
            match atNeg st 1 with
            | some (VmStackEntryM.cellEntry boc) =>
              match tryLoadAsLibrary fetch boc with
              | Except.error e => Except.error e
              | Except.ok none => Except.ok result
              | Except.ok (some (libHash, actualCode)) =>
                match fuel with
                | 0 => Except.error "retry limit exceeded"
                | Nat.succ fuel2 =>
                  retraceGo pipeline parseLogs fetch fuel2
                    (additionalLibs ++ [(libHash, actualCode)])
            | _ => Except.ok result
          else Except.ok result
        | _, _, _, _ => Except.ok result
      else Except.ok result

/-- The top-of-stack cell of a parsed VM log whose tail matches the exact
missing-library signature, `none` when the signature does not match or the
stack top is not a cell (observable used to state C2). -/
def logSigTopCell (lines : List VmLineM) : Option TsCell :=
  match atNeg lines 2, atNeg lines 3, atNeg lines 4, atNeg lines 6 with
  | some VmLineM.vmExceptionHandler, some (VmLineM.vmException msg),
      some (VmLineM.vmExecute instr), some (VmLineM.vmStack st) =>
    if msg = "failed to load library cell" ∧ instr = "CTOS" then
      match atNeg st 1 with
      | some (VmStackEntryM.cellEntry boc) => some boc
      | _ => none
    else none
  | _, _, _, _ => none

/-- C2: when the inner pipeline produces a report whose compute phase ran
with a non-zero exit code, and either the log tail does not match the exact
missing-library signature or the signature's stack-top cell does not
classify as a library fragment, the retry wrapper performs no retry and
returns the inner pipeline's result verbatim. -/
theorem retry_verbatim_c2 (pipeline : List (Nat × TsCell) → Except String TraceResultM)
    (parseLogs : String → List VmLineM) (fetch : Nat → Option TsCell)
    (fuel : Nat) (libs : List (Nat × TsCell)) (r : TraceResultM)
    (s : Bool) (ec : Int) (steps gas fees : Nat)
    (hp : pipeline libs = Except.ok r)
    (hci : r.emulatedTx.computeInfo = ComputeInfoM.info s ec steps gas fees)
    (hnz : ec ≠ 0)
    (hsig : ∀ c, logSigTopCell (parseLogs r.emulatedTx.vmLogs) = some c →
      tryLoadAsLibrary fetch c = Except.ok none) :
    retraceGo pipeline parseLogs fetch fuel libs = pipeline libs := by
  rw [retraceGo.eq_def, hp]
  simp only [hci]
  rw [if_neg hnz]
  by_cases h9 : ec = 9
  · rw [if_pos h9]
    cases h2 : atNeg (parseLogs r.emulatedTx.vmLogs) 2 with
    | none => rfl
    | some l2 =>
      cases l2 with
      | vmException m => rfl
      | vmExecute i => rfl
      | vmStack stk => rfl
      | otherLine => rfl
      | vmExceptionHandler =>
        cases h3 : atNeg (parseLogs r.emulatedTx.vmLogs) 3 with
        | none => rfl
        | some l3 =>
          cases l3 with
          | vmExceptionHandler => rfl
          | vmExecute i => rfl
          | vmStack stk => rfl
          | otherLine => rfl
          | vmException msg =>
            cases h4 : atNeg (parseLogs r.emulatedTx.vmLogs) 4 with
            | none => rfl
            | some l4 =>
              cases l4 with
              | vmExceptionHandler => rfl
              | vmException m => rfl
              | vmStack stk => rfl
              | otherLine => rfl
              | vmExecute instr =>
                cases h6 : atNeg (parseLogs r.emulatedTx.vmLogs) 6 with
                | none => rfl
                | some l6 =>
                  cases l6 with
                  | vmExceptionHandler => rfl
                  | vmException m => rfl
                  | vmExecute i => rfl
                  | otherLine => rfl
                  | vmStack stk =>
                    show (if msg = "failed to load library cell" ∧ instr = "CTOS" then
                        match atNeg stk 1 with
                        | some (VmStackEntryM.cellEntry boc) =>
                          match tryLoadAsLibrary fetch boc with
                          | Except.error e => Except.error e
                          | Except.ok none => Except.ok r
                          | Except.ok (some (libHash, actualCode)) =>
                            match fuel with
                            | 0 => Except.error "retry limit exceeded"
                            | Nat.succ fuel2 =>
                              retraceGo pipeline parseLogs fetch fuel2
                                (libs ++ [(libHash, actualCode)])
                        | _ => Except.ok r
                      else Except.ok r) = Except.ok r
                    by_cases hcond : msg = "failed to load library cell" ∧ instr = "CTOS"
                    · rw [if_pos hcond]
                      cases h1 : atNeg stk 1 with
                      | none => rfl
                      | some entry =>
                        cases entry with
                        | otherEntry => rfl
                        | cellEntry boc =>
                          have hcell : logSigTopCell (parseLogs r.emulatedTx.vmLogs) =
                              some boc := by
                            unfold logSigTopCell
                            rw [h2, h3, h4, h6]
                            show (if msg = "failed to load library cell" ∧ instr = "CTOS" then
                                match atNeg stk 1 with
                                | some (VmStackEntryM.cellEntry c) => some c
                                | _ => none
                              else none) = some boc
                            rw [if_pos hcond, h1]
                          show (match tryLoadAsLibrary fetch boc with
                              | Except.error e => Except.error e
                              | Except.ok none => Except.ok r
                              | Except.ok (some (libHash, actualCode)) =>
                                match fuel with
                                | 0 => Except.error "retry limit exceeded"
                                | Nat.succ fuel2 =>
                                  retraceGo pipeline parseLogs fetch fuel2
                                    (libs ++ [(libHash, actualCode)])) = Except.ok r
                          rw [hsig boc hcell]
                    · rw [if_neg hcond]
  · rw [if_neg h9]

/-- Concrete report for the C2 witness: compute phase ran with exit code 9,
VM log text "v". -/
def c2Result : TraceResultM :=
  ⟨false, none, none, ⟨none, AddrM.addr 2, none, none⟩, ⟨0, 0, 0, 0⟩,
    ⟨0, 0, ComputeInfoM.info false 9 1 2 3, "logs", none, "v"⟩⟩

/-- Witness for C2: exit code 9 whose parsed log is empty (no
missing-library signature) — the wrapper returns the pipeline result
verbatim. -/
theorem retry_verbatim_c2_witness :
    retraceGo (fun _ => Except.ok c2Result) (fun _ => []) (fun _ => none) 5 [] =
      Except.ok c2Result := by
  have h := retry_verbatim_c2 (fun _ => Except.ok c2Result) (fun _ => []) (fun _ => none)
    5 [] c2Result false 9 1 2 3 rfl rfl (by decide)
    (fun c hc => Option.noConfusion hc)
  exact h
